import Mathlib

/-!
Verification of the MutaFuzz Python scripting environment
(`src/main/resources/ScriptEnvironment.py` and the default combination
script `src/main/resources/scripts/000_default.py`).

The embedding is shallow: Python objects become Lean structures, Python
truthiness of optional strings / lists is made explicit, calls into the
Java engine (`handler.queueUrl`, `handler.sendRawTemplate`, ...) become
constructors of an `EngineCall` datatype, and `raise ValueError` becomes
`Except.error`.
-/

namespace MutaFuzz

/-- Python truthiness of an optional string: `None` and `""` are falsy. -/
def strOptTruthy : Option String → Bool
  | none => false
  | some s => !(s == "")

/-- Python truthiness of an optional list: `None` and `[]` are falsy. -/
def listOptTruthy : Option (List String) → Bool
  | none => false
  | some l => !l.isEmpty

/-- An opaque Montoya `HttpRequest` object; `str` is its `toString()` value
(the only observation the scripting layer makes of it). -/
structure HttpRequest where
  str : String
deriving DecidableEq, Repr

instance : Inhabited HttpRequest := ⟨⟨""⟩⟩

/-- One call into the Java engine (`PythonScriptBridge`).  Arguments mirror
the Python call sites: `queueRawTemplate` receives the builder fields as
they are (the url and the payload list may be `None`). -/
inductive EngineCall where
  | queueHttpRequest (req : HttpRequest) (lg : Int)
  | queueRawTemplate (url : Option String) (template : String)
      (payloads : Option (List String)) (lg : Int)
  | queuePayloads (payloads : List String) (lg : Int)
  | queueUrl (url : String) (lg : Int)
  | sendHttpRequest (req : HttpRequest)
  | sendRawTemplate (url : Option String) (template : String) (payloads : List String)
  | sendPayloads (payloads : List String)
  | sendUrl (url : String)
deriving DecidableEq, Repr

/-- State injected by the host that `queue` consults:
`handler.getCurrentTemplateRequest()` (the template-editor request, absent
when the run has none). -/
structure Env where
  currentTemplate : Option HttpRequest
deriving DecidableEq, Repr

/-- `QueueBuilder.__init__`: the five builder fields, in source order
(`_url`, `_template`, `_payloads`, `_learn_group`, `_http_request`). -/
structure Builder where
  url : Option String
  template : Option String
  payloads : Option (List String)
  learn_group : Int
  http_request : Option HttpRequest
deriving DecidableEq, Repr

/-- `QueueBuilder.payloads`: models the setter for a list argument
(the scalar branch of the `isinstance` check wraps a non-list in a
one-element list and is not needed by the claims). -/
def Builder.setPayloads (b : Builder) (ps : List String) : Builder :=
  { b with payloads := some ps }

/-- `QueueBuilder.queue`: returns the engine calls made (zero or one) and
the returned builder (`return self`).  The Python `if self._http_request:`
tests object truthiness (non-`None`); `self._template`, `self._payloads`
and `self._url` are string/list truthiness. -/
def Builder.queue (env : Env) (b : Builder) : List EngineCall × Builder :=
  match b.http_request with
  | some req => ([.queueHttpRequest req b.learn_group], b)
  | none =>
    if strOptTruthy b.template then
      ([.queueRawTemplate b.url (b.template.getD "") b.payloads b.learn_group], b)
    else if listOptTruthy b.payloads then
      match env.currentTemplate with
      | some current_req =>
          ([.queueRawTemplate none current_req.str b.payloads b.learn_group], b)
      | none => ([.queuePayloads (b.payloads.getD []) b.learn_group], b)
    else if strOptTruthy b.url then
      ([.queueUrl (b.url.getD "") b.learn_group], b)
    else ([], b)

/-- The two `ValueError` messages raised by `QueueBuilder.send`. -/
def rawRequestNeedsPayloadsMsg : String := "raw_request() requires payloads()"

/-- The no-target `ValueError` message of `QueueBuilder.send`. -/
def sendNoTargetMsg : String :=
  "send() requires url(), payloads(), http_request(), or raw_request()"

/-- `QueueBuilder.send`: dispatches exactly one synchronous engine call or
raises `ValueError` (modelled as `Except.error` with the message). -/
def Builder.send (b : Builder) : Except String EngineCall :=
  match b.http_request with
  | some req => .ok (.sendHttpRequest req)
  | none =>
    if strOptTruthy b.template then
      if !listOptTruthy b.payloads then
        .error rawRequestNeedsPayloadsMsg
      else
        .ok (.sendRawTemplate b.url (b.template.getD "") (b.payloads.getD []))
    else if listOptTruthy b.payloads then
      .ok (.sendPayloads (b.payloads.getD []))
    else if strOptTruthy b.url then
      .ok (.sendUrl (b.url.getD ""))
    else
      .error sendNoTargetMsg

/-!
Spec-side definitions for the task-resolution precedence (spec §4.1):
the four target-specification modes of the task-descriptor union
(spec §3), ordered prepared-request > raw-template+payloads >
payloads-only > url-only.  A mode counts as "set" exactly when the
builder fields it needs are truthy.
-/

/-- Mode 1 of the task descriptor: a prepared request is set. -/
def preparedSet (b : Builder) : Bool := b.http_request.isSome

/-- Mode 2: a raw template together with payloads is set. -/
def rawTplSet (b : Builder) : Bool :=
  strOptTruthy b.template && listOptTruthy b.payloads

/-- Mode 3: a payload list is set. -/
def payloadsOnlySet (b : Builder) : Bool := listOptTruthy b.payloads

/-- Mode 4: a target url is set. -/
def urlOnlySet (b : Builder) : Bool := strOptTruthy b.url

/-- How many of the four target-specification modes are set. -/
def specCount (b : Builder) : Nat :=
  (if preparedSet b then 1 else 0) + (if rawTplSet b then 1 else 0) +
    (if payloadsOnlySet b then 1 else 0) + (if urlOnlySet b then 1 else 0)

/-- The four target-specification modes, in precedence order. -/
inductive SpecKind where
  | prepared
  | rawTpl
  | payloadsOnly
  | urlOnly
deriving DecidableEq, Repr

/-- The highest-precedence mode that is set, following the spec wording
"prepared-request > raw-template+payloads > payloads-only > url-only". -/
def topSpec (b : Builder) : Option SpecKind :=
  if preparedSet b then some .prepared
  else if rawTplSet b then some .rawTpl
  else if payloadsOnlySet b then some .payloadsOnly
  else if urlOnlySet b then some .urlOnly
  else none

/-- Spec-side description of the single asynchronous dispatch mandated by
the precedence rule: the call for the highest-precedence mode that is set;
a payloads-only task reuses the currently active template when present. -/
def specQueueCall (env : Env) (b : Builder) : Option EngineCall :=
  match topSpec b with
  | some .prepared => b.http_request.map (fun r => .queueHttpRequest r b.learn_group)
  | some .rawTpl =>
      some (.queueRawTemplate b.url (b.template.getD "") b.payloads b.learn_group)
  | some .payloadsOnly =>
      match env.currentTemplate with
      | some t => some (.queueRawTemplate none t.str b.payloads b.learn_group)
      | none => some (.queuePayloads (b.payloads.getD []) b.learn_group)
  | some .urlOnly => some (.queueUrl (b.url.getD "") b.learn_group)
  | none => none

/-- Spec-side description of the single synchronous dispatch mandated by
the precedence rule. -/
def specSendCall (b : Builder) : Option EngineCall :=
  match topSpec b with
  | some .prepared => b.http_request.map (fun r => .sendHttpRequest r)
  | some .rawTpl =>
      some (.sendRawTemplate b.url (b.template.getD "") (b.payloads.getD []))
  | some .payloadsOnly => some (.sendPayloads (b.payloads.getD []))
  | some .urlOnly => some (.sendUrl (b.url.getD ""))
  | none => none

/-- C1: whenever more than one target-specification mode is set, both
`queue()` and `send()` make exactly one dispatch call, the one for the
highest-precedence mode that is set (prepared-request > raw-template+payloads
> payloads-only, reusing the currently active template if present, > url-only). -/
theorem queue_send_resolve_by_precedence (env : Env) (b : Builder)
    (h : 2 ≤ specCount b) :
    (∃ c, specQueueCall env b = some c ∧ Builder.queue env b = ([c], b)) ∧
    (∃ c, specSendCall b = some c ∧ Builder.send b = .ok c) := by
  cases hr : b.http_request with
  | some req =>
      exact ⟨⟨.queueHttpRequest req b.learn_group,
              by simp [specQueueCall, topSpec, preparedSet, hr],
              by simp [Builder.queue, hr]⟩,
             ⟨.sendHttpRequest req,
              by simp [specSendCall, topSpec, preparedSet, hr],
              by simp [Builder.send, hr]⟩⟩
  | none =>
      by_cases ht : strOptTruthy b.template
      · by_cases hp : listOptTruthy b.payloads
        · exact ⟨⟨.queueRawTemplate b.url (b.template.getD "") b.payloads b.learn_group,
                  by simp [specQueueCall, topSpec, preparedSet, rawTplSet, hr, ht, hp],
                  by simp [Builder.queue, hr, ht]⟩,
                 ⟨.sendRawTemplate b.url (b.template.getD "") (b.payloads.getD []),
                  by simp [specSendCall, topSpec, preparedSet, rawTplSet, hr, ht, hp],
                  by simp [Builder.send, hr, ht, hp]⟩⟩
        · exfalso
          by_cases hu : strOptTruthy b.url <;>
            simp [specCount, preparedSet, rawTplSet, payloadsOnlySet, urlOnlySet,
              hr, ht, hp, hu] at h
      · by_cases hp : listOptTruthy b.payloads
        · cases hc : env.currentTemplate with
          | some t =>
              exact ⟨⟨.queueRawTemplate none t.str b.payloads b.learn_group,
                      by simp [specQueueCall, topSpec, preparedSet, rawTplSet,
                        payloadsOnlySet, hr, ht, hp, hc],
                      by simp [Builder.queue, hr, ht, hp, hc]⟩,
                     ⟨.sendPayloads (b.payloads.getD []),
                      by simp [specSendCall, topSpec, preparedSet, rawTplSet,
                        payloadsOnlySet, hr, ht, hp],
                      by simp [Builder.send, hr, ht, hp]⟩⟩
          | none =>
              exact ⟨⟨.queuePayloads (b.payloads.getD []) b.learn_group,
                      by simp [specQueueCall, topSpec, preparedSet, rawTplSet,
                        payloadsOnlySet, hr, ht, hp, hc],
                      by simp [Builder.queue, hr, ht, hp, hc]⟩,
                     ⟨.sendPayloads (b.payloads.getD []),
                      by simp [specSendCall, topSpec, preparedSet, rawTplSet,
                        payloadsOnlySet, hr, ht, hp],
                      by simp [Builder.send, hr, ht, hp]⟩⟩
        · exfalso
          by_cases hu : strOptTruthy b.url <;>
            simp [specCount, preparedSet, rawTplSet, payloadsOnlySet, urlOnlySet,
              hr, ht, hp, hu] at h

/-- Witness for C1: a builder with both a url and a payload list set
(two modes set) resolves to the payloads-only dispatch for both `queue()`
and `send()`. -/
theorem queue_send_resolve_by_precedence_witness :
    (∃ c, specQueueCall ⟨none⟩ ⟨some "http://t", none, some ["p"], 0, none⟩ = some c ∧
        Builder.queue ⟨none⟩ ⟨some "http://t", none, some ["p"], 0, none⟩ =
          ([c], ⟨some "http://t", none, some ["p"], 0, none⟩)) ∧
    (∃ c, specSendCall ⟨some "http://t", none, some ["p"], 0, none⟩ = some c ∧
        Builder.send ⟨some "http://t", none, some ["p"], 0, none⟩ = .ok c) :=
  queue_send_resolve_by_precedence ⟨none⟩ ⟨some "http://t", none, some ["p"], 0, none⟩
    (by decide)

/-- The configurations in which `send()` raises, as the code has them:
either no builder field is truthy-set, or a raw template is truthy-set
while the payload list is unset or empty and no prepared request is set. -/
def sendErrCond (b : Builder) : Bool :=
  (!preparedSet b && !strOptTruthy b.template && !listOptTruthy b.payloads &&
      !urlOnlySet b) ||
    (strOptTruthy b.template && !listOptTruthy b.payloads && !preparedSet b)

/-- C2, counterexample: with a prepared request AND a raw template set but
no payloads, the claim says `send()` raises the payloads-required error,
yet the code dispatches the prepared request.  The claimed failing
configuration "a raw template is set but the payload list is unset" holds
here, and `send()` succeeds. -/
theorem send_template_error_counterexample :
    strOptTruthy (Builder.mk none (some "GET /%s HTTP/1.1") none 0
        (some ⟨"REQ"⟩)).template = true ∧
    (Builder.mk none (some "GET /%s HTTP/1.1") none 0 (some ⟨"REQ"⟩)).payloads
        = none ∧
    Builder.send (Builder.mk none (some "GET /%s HTTP/1.1") none 0 (some ⟨"REQ"⟩))
        = .ok (.sendHttpRequest ⟨"REQ"⟩) := by
  refine ⟨by decide, rfl, rfl⟩

/-- C2 as amended: `send()` raises a `ValueError` exactly when either no
target field (url, payloads, raw template, prepared request) is truthy-set,
or a raw template is set, the payload list is unset or empty, and no
prepared request is set; in every other configuration it succeeds,
dispatching exactly one synchronous engine call. -/
theorem send_err_iff (b : Builder) :
    (sendErrCond b = true ↔ ∃ e, Builder.send b = .error e) ∧
    (sendErrCond b = false → ∃ c, Builder.send b = .ok c) := by
  cases hr : b.http_request with
  | some req =>
      refine ⟨⟨fun hcond => ?_, fun ⟨e, he⟩ => ?_⟩, fun hcond => ?_⟩
      · simp [sendErrCond, preparedSet, hr] at hcond
      · simp [Builder.send, hr] at he
      · exact ⟨.sendHttpRequest req, by simp [Builder.send, hr]⟩
  | none =>
      by_cases ht : strOptTruthy b.template
      · by_cases hp : listOptTruthy b.payloads
        · refine ⟨⟨fun hcond => ?_, fun ⟨e, he⟩ => ?_⟩, fun hcond => ?_⟩
          · simp [sendErrCond, preparedSet, hr, ht, hp] at hcond
          · simp [Builder.send, hr, ht, hp] at he
          · exact ⟨.sendRawTemplate b.url (b.template.getD "") (b.payloads.getD []),
              by simp [Builder.send, hr, ht, hp]⟩
        · refine ⟨⟨fun hcond => ?_, fun hex => ?_⟩, fun hcond => ?_⟩
          · exact ⟨rawRequestNeedsPayloadsMsg, by simp [Builder.send, hr, ht, hp]⟩
          · simp [sendErrCond, preparedSet, hr, ht, hp]
          · simp [sendErrCond, preparedSet, hr, ht, hp] at hcond
      · by_cases hp : listOptTruthy b.payloads
        · refine ⟨⟨fun hcond => ?_, fun ⟨e, he⟩ => ?_⟩, fun hcond => ?_⟩
          · simp [sendErrCond, preparedSet, hr, ht, hp] at hcond
          · simp [Builder.send, hr, ht, hp] at he
          · exact ⟨.sendPayloads (b.payloads.getD []), by simp [Builder.send, hr, ht, hp]⟩
        · by_cases hu : strOptTruthy b.url
          · refine ⟨⟨fun hcond => ?_, fun ⟨e, he⟩ => ?_⟩, fun hcond => ?_⟩
            · simp [sendErrCond, preparedSet, urlOnlySet, hr, ht, hp, hu] at hcond
            · simp [Builder.send, hr, ht, hp, hu] at he
            · exact ⟨.sendUrl (b.url.getD ""), by simp [Builder.send, hr, ht, hp, hu]⟩
          · refine ⟨⟨fun hcond => ?_, fun hex => ?_⟩, fun hcond => ?_⟩
            · exact ⟨sendNoTargetMsg, by simp [Builder.send, hr, ht, hp, hu]⟩
            · simp [sendErrCond, preparedSet, urlOnlySet, hr, ht, hp, hu]
            · simp [sendErrCond, preparedSet, urlOnlySet, hr, ht, hp, hu] at hcond

/-- Witness for C2 (amended): the empty builder satisfies the error
condition and `send()` indeed raises; a url-only builder does not, and
`send()` dispatches. -/
theorem send_err_iff_witness :
    (∃ e, Builder.send ⟨none, none, none, 0, none⟩ = .error e) ∧
    (∃ c, Builder.send ⟨some "http://t", none, none, 0, none⟩ = .ok c) :=
  ⟨(send_err_iff ⟨none, none, none, 0, none⟩).1.mp (by decide),
   (send_err_iff ⟨some "http://t", none, none, 0, none⟩).2 (by decide)⟩

/-- C3: `queue()` on a builder with no target field truthy-set makes no
engine call, raises nothing (the model is a total function), and returns
the builder unchanged. -/
theorem queue_no_target_noop (env : Env) (b : Builder)
    (hr : b.http_request = none) (ht : strOptTruthy b.template = false)
    (hp : listOptTruthy b.payloads = false) (hu : strOptTruthy b.url = false) :
    Builder.queue env b = ([], b) := by
  simp [Builder.queue, hr, ht, hp, hu]

/-- Witness for C3: the freshly initialised builder queues nothing. -/
theorem queue_no_target_noop_witness :
    Builder.queue ⟨some ⟨"TPL"⟩⟩ ⟨none, none, none, 0, none⟩ =
      ([], ⟨none, none, none, 0, none⟩) :=
  queue_no_target_noop ⟨some ⟨"TPL"⟩⟩ ⟨none, none, none, 0, none⟩ rfl rfl rfl rfl

/-- C10: after `payloads([])`, the builder behaves as if no payload
specification were set: the queue and send dispatches equal those of the
same builder with the payload field unset, `queue()` falls through to the
url branch when a url is set, and with no other specification set `queue()`
is a no-op while `send()` raises the no-target error. -/
theorem empty_payloads_behaves_unset (env : Env) (b : Builder)
    (hp : b.payloads = some []) (hr : b.http_request = none)
    (ht : strOptTruthy b.template = false) :
    (Builder.queue env b).1 = (Builder.queue env { b with payloads := none }).1 ∧
    Builder.send b = Builder.send { b with payloads := none } ∧
    (strOptTruthy b.url = true →
      Builder.queue env b = ([.queueUrl (b.url.getD "") b.learn_group], b)) ∧
    (strOptTruthy b.url = false →
      Builder.queue env b = ([], b) ∧ Builder.send b = .error sendNoTargetMsg) := by
  have hptruthy : listOptTruthy b.payloads = false := by simp [listOptTruthy, hp]
  refine ⟨?_, ?_, fun hu => ?_, fun hu => ⟨?_, ?_⟩⟩
  · by_cases hu : strOptTruthy b.url <;>
      simp [Builder.queue, hr, ht, hp, listOptTruthy, hu]
  · by_cases hu : strOptTruthy b.url <;>
      simp [Builder.send, hr, ht, hp, listOptTruthy, hu]
  · simp [Builder.queue, hr, ht, hp, listOptTruthy, hu]
  · simp [Builder.queue, hr, ht, hp, listOptTruthy, hu]
  · simp [Builder.send, hr, ht, hp, listOptTruthy, hu]

/-- Witness for C10: `fuzz.payloads([]).queue()` queues nothing and
`fuzz.payloads([]).send()` raises the no-target error. -/
theorem empty_payloads_behaves_unset_witness :
    Builder.queue ⟨none⟩ ⟨none, none, some [], 0, none⟩ =
        ([], ⟨none, none, some [], 0, none⟩) ∧
    Builder.send ⟨none, none, some [], 0, none⟩ = .error sendNoTargetMsg :=
  (empty_payloads_behaves_unset ⟨none⟩ ⟨none, none, some [], 0, none⟩
      rfl rfl (by decide)).2.2.2 (by decide)

/-!
Response records and the `filter` decorator class.

A wrapped handler is modelled as a function `Req → List α` returning the
record of inner-handler invocations (with their results): the Python
wrapper body `if pred: return func(req)` (implicitly returning `None`,
i.e. doing nothing, otherwise) becomes `if pred then func req else []`.
-/

/-- An engine-produced response record as the filters observe it:
`req.status`, `req.interesting`, `req.length`, `req.text` (the body, which
may be absent). -/
structure Req where
  status : Int
  interesting : Bool
  length : Int
  text : Option String
deriving DecidableEq, Repr

/-- Python `str.lower()` (ASCII case mapping, as `Char.toLower`). -/
def pyLower (s : String) : String := String.mk (s.data.map Char.toLower)

/-- Python `str.upper()` (ASCII case mapping, as `Char.toUpper`). -/
def pyUpper (s : String) : String := String.mk (s.data.map Char.toUpper)

/-- Python `str.capitalize()`: first character uppercased, all remaining
characters lowercased. -/
def pyCapitalize (s : String) : String :=
  match s.data with
  | [] => ""
  | c :: cs => String.mk (c.toUpper :: cs.map Char.toLower)

/-- Python `kw in body` substring containment. -/
def pyContains (body kw : String) : Bool := decide (kw.data <:+: body.data)

namespace filter

/-- `filter.status(codes)`: include only these status codes. -/
def status {α : Type} (codes : List Int) (func : Req → List α) : Req → List α :=
  fun req => if req.status ∈ codes then func req else []

/-- `filter.status_not(codes)`: exclude these status codes. -/
def status_not {α : Type} (codes : List Int) (func : Req → List α) : Req → List α :=
  fun req => if req.status ∉ codes then func req else []

/-- `filter.interesting()`: include only responses marked interesting. -/
def interesting {α : Type} (func : Req → List α) : Req → List α :=
  fun req => if req.interesting then func req else []

/-- `filter.length_range(min, max)`: inclusive content-length range, either
bound may be absent (`None`). -/
def length_range {α : Type} (min max : Option Int) (func : Req → List α) :
    Req → List α :=
  fun req =>
    let length := req.length
    if (match min with | none => true | some a => decide (length ≥ a)) &&
        (match max with | none => true | some b => decide (length ≤ b)) then
      func req
    else []

/-- `filter.contains(*keywords)`: include only if the body contains all
keywords, case-insensitively; `body_lower = req.text.lower() if req.text
else ""` (Python truthiness: an absent or empty body yields `""`). -/
def contains {α : Type} (keywords : List String) (func : Req → List α) :
    Req → List α :=
  fun req =>
    let body_lower := if strOptTruthy req.text then pyLower (req.text.getD "") else ""
    if keywords.all (fun kw => pyContains body_lower (pyLower kw)) then func req
    else []

/-- Source method `filter.matches(pattern, ignore_case)` (renamed here
because `matches` is a Lean keyword): include only if
`re.search(pattern, body, flags)` finds a match; the compiled regex search
(with its flags) is kept opaque as a predicate on the body text;
`body = req.text if req.text else ""`. -/
def matchesRe {α : Type} (search : String → Bool) (func : Req → List α) :
    Req → List α :=
  fun req =>
    let body := if strOptTruthy req.text then req.text.getD "" else ""
    if search body then func req else []

end filter

/-- A stacked filter, one per decorator kind of the `filter` class. -/
inductive Filter where
  | status (codes : List Int)
  | status_not (codes : List Int)
  | interesting
  | length_range (min max : Option Int)
  | contains (keywords : List String)
  | matchesRe (search : String → Bool)

/-- Apply one filter decorator to a handler. -/
def Filter.apply {α : Type} : Filter → (Req → List α) → Req → List α
  | .status codes => filter.status codes
  | .status_not codes => filter.status_not codes
  | .interesting => filter.interesting
  | .length_range mn mx => filter.length_range mn mx
  | .contains kws => filter.contains kws
  | .matchesRe search => filter.matchesRe search

/-- The acceptance predicate of one filter, read off the wrapper guards. -/
def Filter.accepts : Filter → Req → Bool
  | .status codes, req => decide (req.status ∈ codes)
  | .status_not codes, req => decide (req.status ∉ codes)
  | .interesting, req => req.interesting
  | .length_range mn mx, req =>
      (match mn with | none => true | some a => decide (req.length ≥ a)) &&
        (match mx with | none => true | some b => decide (req.length ≤ b))
  | .contains kws, req =>
      kws.all (fun kw =>
        pyContains (if strOptTruthy req.text then pyLower (req.text.getD "") else "")
          (pyLower kw))
  | .matchesRe search, req =>
      search (if strOptTruthy req.text then req.text.getD "" else "")

/-- Each decorator invokes the inner handler iff its predicate accepts. -/
theorem Filter.apply_eq_ite {α : Type} (f : Filter) (func : Req → List α)
    (req : Req) : Filter.apply f func req =
      if f.accepts req = true then func req else [] := by
  cases f <;>
    simp [Filter.apply, Filter.accepts, filter.status, filter.status_not,
      filter.interesting, filter.length_range, filter.contains, filter.matchesRe]

/-- A stack of decorators around a handler; the head of the list is the
outermost (textually topmost) decorator, so the innermost filter of the
stack runs first. -/
def applyStack {α : Type} (fs : List Filter) (func : Req → List α) :
    Req → List α :=
  fs.foldr Filter.apply func

/-- C7: for every stack of filters around the invocation-recording handler
and every response record, a record rejected by any predicate never
reaches the handler (zero invocations), and a record accepted by every
predicate reaches it exactly once. -/
theorem filter_stack_gates_handler (fs : List Filter) (req : Req) :
    ((∃ f ∈ fs, f.accepts req = false) → applyStack fs (fun r => [r]) req = []) ∧
    ((∀ f ∈ fs, f.accepts req = true) → applyStack fs (fun r => [r]) req = [req]) := by
  induction fs with
  | nil =>
      exact ⟨fun ⟨f, hf, _⟩ => absurd hf (List.not_mem_nil f), fun _ => rfl⟩
  | cons f rest ih =>
      have happly : applyStack (f :: rest) (fun r => [r]) req =
          if f.accepts req = true then applyStack rest (fun r => [r]) req
          else [] := by
        simp [applyStack, Filter.apply_eq_ite]
      refine ⟨?_, ?_⟩
      · rintro ⟨g, hg, hacc⟩
        rcases List.mem_cons.mp hg with rfl | hmem
        · rw [happly, if_neg (by simp [hacc])]
        · by_cases hf : f.accepts req = true
          · rw [happly, if_pos hf, ih.1 ⟨g, hmem, hacc⟩]
          · rw [happly, if_neg hf]
      · intro hall
        rw [happly, if_pos (hall f (List.mem_cons_self f rest)),
          ih.2 (fun g hg => hall g (List.mem_cons_of_mem f hg))]

/-- Witness for C7: a 404 record dies at a `status([200])` filter (zero
handler invocations), and passes a stacked `status([404])` +
`length_range(min=1)` pair exactly once. -/
theorem filter_stack_gates_handler_witness :
    applyStack [Filter.status [200]] (fun r => [r]) ⟨404, true, 10, none⟩ = [] ∧
    applyStack [Filter.status [404], Filter.length_range (some 1) none]
        (fun r => [r]) ⟨404, true, 10, none⟩ = [⟨404, true, 10, none⟩] :=
  ⟨(filter_stack_gates_handler [Filter.status [200]] ⟨404, true, 10, none⟩).1
      ⟨Filter.status [200], by simp, by decide⟩,
   (filter_stack_gates_handler [Filter.status [404], Filter.length_range (some 1) none]
        ⟨404, true, 10, none⟩).2
      (by intro g hg; fin_cases hg <;> decide)⟩

/-- Spec-side acceptance predicate of `length_range`: accepted iff
(min is unset or L >= a) and (max is unset or L <= b). -/
def lengthRangeAccepts (mn mx : Option Int) (L : Int) : Bool :=
  (match mn with | none => true | some a => decide (a ≤ L)) &&
    (match mx with | none => true | some b => decide (L ≤ b))

/-- C8: `length_range(min, max)` invokes the inner handler exactly when
`(min is unset or length >= min) and (max is unset or length <= max)`;
in particular a record whose length equals the min bound, or equals the
max bound, is accepted (the bounds are inclusive), provided the other
bound also holds there. -/
theorem length_range_iff_and_boundaries (mn mx : Option Int) (req : Req) :
    (filter.length_range mn mx (fun r => [r]) req =
      if lengthRangeAccepts mn mx req.length = true then [req] else []) ∧
    (∀ a, mn = some a → req.length = a →
      mx.all (fun b => decide (a ≤ b)) = true →
      filter.length_range mn mx (fun r => [r]) req = [req]) ∧
    (∀ b, mx = some b → req.length = b →
      mn.all (fun a => decide (a ≤ b)) = true →
      filter.length_range mn mx (fun r => [r]) req = [req]) := by
  have hmain : filter.length_range mn mx (fun r => [r]) req =
      if lengthRangeAccepts mn mx req.length = true then [req] else [] := by
    simp only [filter.length_range, lengthRangeAccepts, ge_iff_le]
  refine ⟨hmain, ?_, ?_⟩
  · rintro a rfl hL hall
    rw [hmain, if_pos]
    cases mx with
    | none => simp [lengthRangeAccepts, hL]
    | some b => simp only [Option.all_some] at hall; simp [lengthRangeAccepts, hL, hall]
  · rintro b rfl hL hall
    rw [hmain, if_pos]
    cases mn with
    | none => simp [lengthRangeAccepts, hL]
    | some a => simp only [Option.all_some] at hall; simp [lengthRangeAccepts, hL, hall]

/-- Witness for C8: bounds `[5, 9]` accept a record of length exactly 5
and one of length exactly 9. -/
theorem length_range_iff_and_boundaries_witness :
    filter.length_range (some 5) (some 9) (fun r => [r]) ⟨200, false, 5, none⟩ =
        [⟨200, false, 5, none⟩] ∧
    filter.length_range (some 5) (some 9) (fun r => [r]) ⟨200, false, 9, none⟩ =
        [⟨200, false, 9, none⟩] :=
  ⟨(length_range_iff_and_boundaries (some 5) (some 9) ⟨200, false, 5, none⟩).2.1
      5 rfl rfl (by decide),
   (length_range_iff_and_boundaries (some 5) (some 9) ⟨200, false, 9, none⟩).2.2
      9 rfl rfl (by decide)⟩

/-- C9: for `contains` and `matches` (here `matchesRe`), the accept/reject
decision on a record with an absent body equals the decision on the same
record with an empty-string body; both filters are total functions, so an
absent body never rejects by error.  The handler records one invocation
per call, independently of the record, so equality of the outputs is
equality of the decisions. -/
theorem absent_body_equals_empty_body (keywords : List String)
    (search : String → Bool) (req : Req) (h : req.text = none) :
    filter.contains keywords (fun _ => [0]) req =
      filter.contains keywords (fun _ => [0]) { req with text := some "" } ∧
    filter.matchesRe search (fun _ => [0]) req =
      filter.matchesRe search (fun _ => [0]) { req with text := some "" } := by
  constructor <;> simp [filter.contains, filter.matchesRe, strOptTruthy, h]

/-- Witness for C9: a record with an absent body and the keyword list
`["x"]` and the search predicate "body is empty" decide identically to the
empty-body record. -/
theorem absent_body_equals_empty_body_witness :
    filter.contains ["x"] (fun _ => [0]) ⟨200, false, 0, none⟩ =
      filter.contains ["x"] (fun _ => [0]) ⟨200, false, 0, some ""⟩ ∧
    filter.matchesRe (fun s => s == "") (fun _ => [0]) ⟨200, false, 0, none⟩ =
      filter.matchesRe (fun s => s == "") (fun _ => [0]) ⟨200, false, 0, some ""⟩ :=
  absent_body_equals_empty_body ["x"] (fun s => s == "") ⟨200, false, 0, none⟩ rfl

/-!
The default combination/transform engine
(`scripts/000_default.py`, `queue_tasks`, main fuzzing phase,
lines 84-111).  Each `fuzz.payloads(X).queue()` call site is modelled by
emitting the payload list `X` of the queued task.
-/

/-- The three transform configuration switches of `000_default.py`
(all `False` by default in the source). -/
structure Config where
  UPPERCASE : Bool
  LOWERCASE : Bool
  UPPER_FIRST_CHAR : Bool
deriving DecidableEq, Repr

/-- The per-payload transform chain of the battering-ram branch
(lines 92-97): `payload.upper()` if `UPPERCASE`, elif `LOWERCASE` then
`payload.lower()`, elif `UPPER_FIRST_CHAR` then `payload.capitalize()`. -/
def applyTransform (cfg : Config) (payload : String) : String :=
  if cfg.UPPERCASE then pyUpper payload
  else if cfg.LOWERCASE then pyLower payload
  else if cfg.UPPER_FIRST_CHAR then pyCapitalize payload
  else payload

/-- The per-tuple transform chain of the pitchfork branch (lines 104-109):
the same priority chain, mapped over every element of the combination. -/
def transformTuple (cfg : Config) (combination : List String) : List String :=
  if cfg.UPPERCASE then combination.map pyUpper
  else if cfg.LOWERCASE then combination.map pyLower
  else if cfg.UPPER_FIRST_CHAR then combination.map pyCapitalize
  else combination

/-- `itertools.product(*wordlists)` as a list of tuples: the first wordlist
varies slowest. -/
def pyProduct : List (List String) → List (List String)
  | [] => [[]]
  | w :: ws => w.flatMap (fun x => (pyProduct ws).map (fun t => x :: t))

/-- The main fuzzing phase of `queue_tasks` (lines 84-111): the payload
lists of the queued tasks, in queueing order.  For `marker_count > 1`
("battering ram") every value of the concatenated wordlists yields one
task `[payload] * marker_count` after the transform; otherwise every
`itertools.product` combination yields one task. -/
def mainPhase (cfg : Config) (wordlists : List (List String))
    (marker_count : Nat) : List (List String) :=
  if marker_count > 1 then
    (wordlists.flatten).map
      (fun payload => List.replicate marker_count (applyTransform cfg payload))
  else
    (pyProduct wordlists).map (fun combination => transformTuple cfg combination)

/-- `queue_tasks` lines 47-54: only the non-empty configured wordlists
participate, in slot order 1, 2, 3. -/
def collectWordlists (w1 w2 w3 : List String) : List (List String) :=
  ([w1, w2, w3]).filter (fun w => decide (0 < w.length))

/-- The product of the wordlist sizes. -/
def sizesProd (ws : List (List String)) : Nat := (ws.map List.length).prod

/-- Spec-side mixed-radix description of the i-th Cartesian tuple in
lexicographic order with the first wordlist varying slowest: the first
coordinate is the quotient of `i` by the product of the later sizes, the
rest recurse on the remainder. -/
def specTuple : List (List String) → Nat → List String
  | [], _ => []
  | w :: ws, i => w.getD (i / sizesProd ws) "" :: specTuple ws (i % sizesProd ws)

/-- Spec-side enumeration of the full Cartesian product in lexicographic
order, first wordlist slowest: tuple `i` for `i = 0 .. (prod sizes) - 1`. -/
def specEnum (ws : List (List String)) : List (List String) :=
  (List.range (sizesProd ws)).map (specTuple ws)

/-- `sizesProd` unfolds over a cons cell. -/
theorem sizesProd_cons (w : List String) (ws : List (List String)) :
    sizesProd (w :: ws) = w.length * sizesProd ws := by
  simp [sizesProd]

/-- `List.range (n * P)` splits into `n` consecutive blocks of length `P`. -/
theorem range_mul_flatMap (n P : Nat) :
    List.range (n * P) =
      (List.range n).flatMap (fun j => (List.range P).map (fun i => j * P + i)) := by
  induction n with
  | zero => simp
  | succ n ih =>
      rw [List.range_succ, List.flatMap_append, ← ih, Nat.succ_mul, List.range_add]
      simp

/-- Binding a function over a list equals binding it over the indices. -/
theorem flatMap_eq_range_getD {β : Type} (w : List String) (F : String → List β) :
    w.flatMap F = (List.range w.length).flatMap (fun j => F (w.getD j "")) := by
  induction w with
  | nil => simp
  | cons x w ih =>
      simp [List.range_succ_eq_map, List.flatMap_map, ih, Function.comp]

/-- `itertools.product` is exactly the mixed-radix lexicographic
enumeration with the first wordlist varying slowest. -/
theorem pyProduct_eq_specEnum (ws : List (List String)) :
    pyProduct ws = specEnum ws := by
  induction ws with
  | nil => rfl
  | cons w ws ih =>
      by_cases hP : sizesProd ws = 0
      · have h1 : pyProduct ws = [] := by rw [ih]; simp [specEnum, hP]
        have h2 : sizesProd (w :: ws) = 0 := by rw [sizesProd_cons, hP, Nat.mul_zero]
        simp [pyProduct, h1, specEnum, h2]
      · have key : (fun j => (specEnum ws).map (fun t => w.getD j "" :: t)) =
            (fun j =>
              ((List.range (sizesProd ws)).map (fun i => j * sizesProd ws + i)).map
                (specTuple (w :: ws))) := by
          funext j
          rw [specEnum, List.map_map, List.map_map]
          apply List.map_congr_left
          intro i hi
          have hilt : i < sizesProd ws := List.mem_range.mp hi
          show w.getD j "" :: specTuple ws i = specTuple (w :: ws) (j * sizesProd ws + i)
          simp only [specTuple]
          congr 2
          · rw [Nat.add_comm, Nat.add_mul_div_right _ _ (Nat.pos_of_ne_zero hP),
              Nat.div_eq_of_lt hilt, Nat.zero_add]
          · rw [Nat.add_comm, Nat.add_mul_mod_self_right, Nat.mod_eq_of_lt hilt]
        calc pyProduct (w :: ws)
            = w.flatMap (fun x => (specEnum ws).map (fun t => x :: t)) := by
              simp only [pyProduct, ih]
          _ = (List.range w.length).flatMap
                (fun j => (specEnum ws).map (fun t => w.getD j "" :: t)) :=
              flatMap_eq_range_getD w _
          _ = (List.range w.length).flatMap
                (fun j =>
                  ((List.range (sizesProd ws)).map (fun i => j * sizesProd ws + i)).map
                    (specTuple (w :: ws))) := by rw [key]
          _ = specEnum (w :: ws) := by
              rw [specEnum, sizesProd_cons, range_mul_flatMap, List.map_flatMap]

/-- C4: pitchfork mode (marker count 1, default switches): the queued task
payload lists are exactly the Cartesian product of the wordlists in
configured order, enumerated lexicographically with the first wordlist
varying slowest (mixed-radix indexing), and their number is the product of
the wordlist sizes. -/
theorem pitchfork_product_lex (ws : List (List String)) (_h : ∀ w ∈ ws, w ≠ []) :
    mainPhase ⟨false, false, false⟩ ws 1 = specEnum ws ∧
    (specEnum ws).length = (ws.map List.length).prod := by
  refine ⟨?_, by simp [specEnum, sizesProd]⟩
  rw [← pyProduct_eq_specEnum]
  simp [mainPhase, transformTuple]

/-- Witness for C4: wordlists `["a","b"]` and `["x"]` produce the two
tasks `["a","x"]`, `["b","x"]` in that order. -/
theorem pitchfork_product_lex_witness :
    (mainPhase ⟨false, false, false⟩ [["a", "b"], ["x"]] 1 =
        specEnum [["a", "b"], ["x"]] ∧
      (specEnum [["a", "b"], ["x"]]).length =
        ([["a", "b"], ["x"]].map List.length).prod) ∧
    mainPhase ⟨false, false, false⟩ [["a", "b"], ["x"]] 1 = [["a", "x"], ["b", "x"]] :=
  ⟨pitchfork_product_lex [["a", "b"], ["x"]] (by decide), by decide⟩

/-- C5: battering-ram mode (marker count `m > 1`, default switches): one
task per value of the concatenated wordlists in configured order, each
payload tuple being that value repeated `m` times; the number of tasks is
the total number of wordlist values. -/
theorem battering_ram_repeat (ws : List (List String)) (m : Nat) (h : 1 < m) :
    mainPhase ⟨false, false, false⟩ ws m =
      (ws.flatten).map (fun v => List.replicate m v) ∧
    (mainPhase ⟨false, false, false⟩ ws m).length = (ws.map List.length).sum := by
  have h1 : mainPhase ⟨false, false, false⟩ ws m =
      (ws.flatten).map (fun v => List.replicate m v) := by
    simp [mainPhase, h, applyTransform]
  exact ⟨h1, by rw [h1]; simp only [List.length_map, List.length_flatten]⟩

/-- Witness for C5: wordlists `["a"]` and `["b","c"]` with two markers
produce `[["a","a"],["b","b"],["c","c"]]`, three tasks. -/
theorem battering_ram_repeat_witness :
    (mainPhase ⟨false, false, false⟩ [["a"], ["b", "c"]] 2 =
        ([["a"], ["b", "c"]].flatten).map (fun v => List.replicate 2 v) ∧
      (mainPhase ⟨false, false, false⟩ [["a"], ["b", "c"]] 2).length =
        ([["a"], ["b", "c"]].map List.length).sum) ∧
    mainPhase ⟨false, false, false⟩ [["a"], ["b", "c"]] 2 =
      [["a", "a"], ["b", "b"], ["c", "c"]] :=
  ⟨battering_ram_repeat [["a"], ["b", "c"]] 2 (by decide), by decide⟩

/-- Claim-side reading of "only the first character is capitalized": the
first character uppercased and every other character left untouched. -/
def upperFirstOnly (s : String) : String :=
  match s.data with
  | [] => ""
  | c :: cs => String.mk (c.toUpper :: cs)

/-- C6, counterexample: with only `UPPER_FIRST_CHAR` enabled, the payload
`"aBC"` becomes `"Abc"` (Python `str.capitalize()` lowercases the rest),
not `"ABC"` as capitalizing only the first character would give. -/
theorem transform_capitalize_counterexample :
    transformTuple ⟨false, false, true⟩ ["aBC"] = ["Abc"] ∧
    ["aBC"].map upperFirstOnly = ["ABC"] ∧
    transformTuple ⟨false, false, true⟩ ["aBC"] ≠ ["aBC"].map upperFirstOnly := by
  refine ⟨by decide, by decide, by decide⟩

/-- C6 as amended: exactly one transform applies by priority — `UPPERCASE`
uppercases every character (even when `LOWERCASE` is also enabled), else
`LOWERCASE` lowercases every character, else `UPPER_FIRST_CHAR` uppercases
the first character and lowercases the remaining ones (Python
`str.capitalize()`), else the payload is unchanged — and the chosen
transform is applied identically to every element of the tuple. -/
theorem transform_priority (cfg : Config) (combination : List String) :
    transformTuple cfg combination =
      combination.map (fun payload => applyTransform cfg payload) ∧
    (cfg.UPPERCASE = true → transformTuple cfg combination = combination.map pyUpper) ∧
    (cfg.UPPERCASE = false → cfg.LOWERCASE = true →
      transformTuple cfg combination = combination.map pyLower) ∧
    (cfg.UPPERCASE = false → cfg.LOWERCASE = false → cfg.UPPER_FIRST_CHAR = true →
      transformTuple cfg combination = combination.map pyCapitalize) ∧
    (cfg = ⟨false, false, false⟩ → transformTuple cfg combination = combination) := by
  rcases cfg with ⟨u, l, f⟩
  cases u <;> cases l <;> cases f <;>
    simp [transformTuple, applyTransform]

/-- Witness for C6 (amended): with `UPPERCASE` and `LOWERCASE` both
enabled, uppercase wins on the tuple `["aB"]`. -/
theorem transform_priority_witness :
    transformTuple ⟨true, true, false⟩ ["aB"] = ["aB"].map pyUpper :=
  (transform_priority ⟨true, true, false⟩ ["aB"]).2.1 rfl

end MutaFuzz
